import Mathlib

/-!
Verification of the `rust_udp_relay` packet-distribution pipeline.

The definitions below are a shallow embedding of `src/main.rs` and
`src/address_filter.rs`: IPv4 addresses are natural numbers below `2^32`,
`u16` ports are naturals reduced mod `2^16` where overflow can occur,
`HashSet` membership is list membership over a duplicate-free-irrelevant
list, and the fallible pieces (`recv_from().unwrap()`, socket sends,
`get_socket_addresses`) return `Except` / `Option` values.
-/

/-- An IPv4 address, as its 32-bit numeric value. -/
structure Ipv4Addr where
  toNat : Nat
deriving DecidableEq, Repr

/-- Build an IPv4 address from four octets, as `Ipv4Addr::new(a, b, c, d)`. -/
def Ipv4Addr.new (a b c d : Nat) : Ipv4Addr :=
  ⟨((a % 256) * 256 + b % 256) * 256 * 256 + (c % 256) * 256 + d % 256⟩

/-- An IPv4 CIDR network (`ipnet::Ipv4Net`): a base address and a prefix length. -/
structure Ipv4Net where
  addr : Ipv4Addr
  prefix_len : Nat
deriving DecidableEq, Repr

/-- CIDR containment (`Ipv4Net::contains`): the candidate address agrees with the
network's base address on the leading `prefix_len` bits, i.e. both fall in the
range from the network address to the broadcast address. -/
def Ipv4Net.contains (net : Ipv4Net) (ip : Ipv4Addr) : Bool :=
  ip.toNat / 2 ^ (32 - net.prefix_len) = net.addr.toNat / 2 ^ (32 - net.prefix_len)

/-- An IPv4 socket address (`std::net::SocketAddrV4`): IP address plus port. -/
structure SocketAddrV4 where
  ip : Ipv4Addr
  port : Nat
deriving DecidableEq, Repr

/-- A socket address (`std::net::SocketAddr`): IPv4, or IPv6 (opaque here). -/
inductive SocketAddr where
  | V4 (inner : SocketAddrV4)
  | V6 (data : Nat)
deriving DecidableEq, Repr

/-- The `AddressFilter` struct: the Transmit-Address Set (a `HashSet`, embedded as
a list used only through membership), the block list and the allow list. -/
structure AddressFilter where
  transmit_addresses_set : List SocketAddrV4
  block_nets : List Ipv4Net
  allow_nets : List Ipv4Net

/-- Embedding of `AddressFilter::should_transmit` (src/address_filter.rs lines
28-49, identical to src/main.rs lines 102-124): storm check is set membership,
block/allow checks are existential CIDR containment, and the result is
`!storm_check && (!in_block_net || in_allow_net)`. -/
def AddressFilter.should_transmit (f : AddressFilter) (socket_addr : SocketAddrV4) : Bool :=
  let storm_check := f.transmit_addresses_set.contains socket_addr
  let in_block_net := f.block_nets.any (fun net => net.contains socket_addr.ip)
  let in_allow_net := f.allow_nets.any (fun net => net.contains socket_addr.ip)
  !storm_check && (!in_block_net || in_allow_net)

/-- The decision rule exactly as §4.1 of the specification words it:
`storm = candidate ∈ Transmit-Address Set`, `blocked` / `allowed` are
existential containment in the respective lists, and the result is
`NOT storm AND (NOT blocked OR allowed)`. Written from the spec, to be
compared against the code-side `AddressFilter.should_transmit`. -/
def spec_filter_rule (f : AddressFilter) (a : SocketAddrV4) : Prop :=
  ¬ a ∈ f.transmit_addresses_set ∧
    (¬ (∃ net ∈ f.block_nets, net.contains a.ip = true) ∨
      (∃ net ∈ f.allow_nets, net.contains a.ip = true))

instance (f : AddressFilter) (a : SocketAddrV4) : Decidable (spec_filter_rule f a) := by
  unfold spec_filter_rule; infer_instance

/-- C1: a candidate in the Transmit-Address Set is never transmitted, whatever
the block and allow lists contain. -/
theorem should_transmit_false_of_mem_transmit_set
    (f : AddressFilter) (a : SocketAddrV4) (h : a ∈ f.transmit_addresses_set) :
    f.should_transmit a = false := by
  simp [AddressFilter.should_transmit, h]

/-- Witness for C1: a concrete address in the set, also covered by the allow
list, is rejected. -/
theorem should_transmit_false_of_mem_transmit_set_witness :
    (AddressFilter.mk [⟨Ipv4Addr.new 10 0 0 2, 9000⟩] []
        [⟨Ipv4Addr.new 10 0 0 0, 8⟩]).should_transmit ⟨Ipv4Addr.new 10 0 0 2, 9000⟩ = false :=
  should_transmit_false_of_mem_transmit_set _ ⟨Ipv4Addr.new 10 0 0 2, 9000⟩ (by decide)

/-- C2: `should_transmit` returns exactly the spec's rule
`NOT storm AND (NOT blocked OR allowed)`. -/
theorem should_transmit_eq_spec_rule (f : AddressFilter) (a : SocketAddrV4) :
    f.should_transmit a = true ↔ spec_filter_rule f a := by
  simp [AddressFilter.should_transmit, spec_filter_rule, List.any_eq_true]

/-- Witness for C2: both sides evaluated at a concrete blocked-but-allowed
address not in the transmit set. -/
theorem should_transmit_eq_spec_rule_witness :
    spec_filter_rule
      (AddressFilter.mk [] [⟨Ipv4Addr.new 192 168 0 0, 16⟩] [⟨Ipv4Addr.new 192 168 1 0, 24⟩])
      ⟨Ipv4Addr.new 192 168 1 10, 5000⟩ :=
  (should_transmit_eq_spec_rule _ _).mp (by decide)

/-- C3: for a candidate outside the Transmit-Address Set, the decision is
`true` when no block-list network covers it, and when one does, it is `true`
exactly when some allow-list network covers it. -/
theorem should_transmit_of_not_storm
    (f : AddressFilter) (a : SocketAddrV4) (h : a ∉ f.transmit_addresses_set) :
    (f.block_nets.all (fun net => !net.contains a.ip) → f.should_transmit a = true) ∧
      (f.block_nets.any (fun net => net.contains a.ip) →
        (f.should_transmit a = true ↔ f.allow_nets.any (fun net => net.contains a.ip))) := by
  constructor
  · intro hall
    have hb : f.block_nets.any (fun net => net.contains a.ip) = false := by
      simp only [List.all_eq_true] at hall
      simp only [List.any_eq_false]
      intro net hnet
      simpa using hall net hnet
    simp [AddressFilter.should_transmit, h, hb]
  · intro hany
    simp [AddressFilter.should_transmit, h, hany]

/-- Witness for C3: with block list `192.168.0.0/16` and allow list
`192.168.1.0/24`, the address `192.168.1.10:5000` (not a destination) is
blocked and allowed, hence transmitted. -/
theorem should_transmit_of_not_storm_witness :
    (AddressFilter.mk [] [⟨Ipv4Addr.new 192 168 0 0, 16⟩]
        [⟨Ipv4Addr.new 192 168 1 0, 24⟩]).should_transmit ⟨Ipv4Addr.new 192 168 1 10, 5000⟩
      = true :=
  ((should_transmit_of_not_storm
      (AddressFilter.mk [] [⟨Ipv4Addr.new 192 168 0 0, 16⟩] [⟨Ipv4Addr.new 192 168 1 0, 24⟩])
      ⟨Ipv4Addr.new 192 168 1 10, 5000⟩ (by decide)).2 (by decide)).mpr (by decide)

/-- Any-over-a-list is invariant under permutation of the list. -/
theorem list_any_congr_of_perm {α : Type} (p : α → Bool) {l₁ l₂ : List α}
    (h : l₁.Perm l₂) : l₁.any p = l₂.any p := by
  induction h with
  | nil => rfl
  | cons x _ ih => simp [List.any_cons, ih]
  | swap x y l => simp [List.any_cons, Bool.or_left_comm]
  | trans _ _ ih₁ ih₂ => exact ih₁.trans ih₂

/-- List membership as `contains` is invariant under permutation. -/
theorem list_contains_congr_of_perm {α : Type} [DecidableEq α] (x : α) {l₁ l₂ : List α}
    (h : l₁.Perm l₂) : l₁.contains x = l₂.contains x := by
  rw [Bool.eq_iff_iff, List.elem_iff, List.elem_iff]
  exact h.mem_iff

/-- C7: the decision is unchanged under any permutation of the block list and
any permutation of the allow list. -/
theorem should_transmit_perm_invariant
    (s : List SocketAddrV4) (b b' al al' : List Ipv4Net) (a : SocketAddrV4)
    (hb : b.Perm b') (ha : al.Perm al') :
    (AddressFilter.mk s b al).should_transmit a
      = (AddressFilter.mk s b' al').should_transmit a := by
  simp only [AddressFilter.should_transmit]
  rw [list_any_congr_of_perm _ hb, list_any_congr_of_perm _ ha]

/-- Witness for C7: swapping the two block-list entries and the two allow-list
entries leaves a concrete decision unchanged. -/
theorem should_transmit_perm_invariant_witness :
    (AddressFilter.mk [⟨Ipv4Addr.new 10 0 0 2, 9000⟩]
        [⟨Ipv4Addr.new 192 168 0 0, 16⟩, ⟨Ipv4Addr.new 10 0 0 0, 8⟩]
        [⟨Ipv4Addr.new 192 168 1 0, 24⟩, ⟨Ipv4Addr.new 10 1 0 0, 16⟩]).should_transmit
        ⟨Ipv4Addr.new 192 168 1 10, 5000⟩
      = (AddressFilter.mk [⟨Ipv4Addr.new 10 0 0 2, 9000⟩]
        [⟨Ipv4Addr.new 10 0 0 0, 8⟩, ⟨Ipv4Addr.new 192 168 0 0, 16⟩]
        [⟨Ipv4Addr.new 10 1 0 0, 16⟩, ⟨Ipv4Addr.new 192 168 1 0, 24⟩]).should_transmit
        ⟨Ipv4Addr.new 192 168 1 10, 5000⟩ :=
  should_transmit_perm_invariant _ _ _ _ _ _ (List.Perm.swap _ _ _) (List.Perm.swap _ _ _)

/-- Receive buffer size (`BUFFER_SIZE` in src/main.rs line 16). -/
def BUFFER_SIZE : Nat := 4096 + 20 + 8

/-- Embedding of `receive_handler` (src/main.rs lines 126-150) acting on the
result of one socket read. A read error is propagated (`unwrap` panics); on a
successful read the handler publishes `(payload, source)` when the source is
IPv4 and the Address Filter passes it, and publishes nothing (`none`)
otherwise. -/
def receive_handler (address_filter : AddressFilter)
    (read : Except Unit (List Nat × SocketAddr)) :
    Except Unit (Option (List Nat × SocketAddr)) :=
  match read with
  | .error e => .error e
  | .ok (payload, source_addr) =>
    match source_addr with
    | .V4 inner =>
      if address_filter.should_transmit inner then .ok (some (payload, source_addr))
      else .ok none
    | .V6 _ => .ok none

/-- C4: a successfully read datagram is published exactly when its source is an
IPv4 address accepted by the filter, carrying the identical payload and source;
in every other case nothing is published, and nothing other than the read pair
can ever be published. -/
theorem receive_handler_publishes_iff (f : AddressFilter) (payload : List Nat)
    (source : SocketAddr) :
    (receive_handler f (.ok (payload, source)) = .ok (some (payload, source)) ↔
      ∃ inner, source = .V4 inner ∧ f.should_transmit inner = true) ∧
    ((∀ inner, source = .V4 inner → f.should_transmit inner = false) →
      receive_handler f (.ok (payload, source)) = .ok none) ∧
    (∀ out, receive_handler f (.ok (payload, source)) = .ok (some out) →
      out = (payload, source)) := by
  refine ⟨?_, ?_, ?_⟩
  · cases source with
    | V4 inner =>
      by_cases hf : f.should_transmit inner = true
      · simp [receive_handler, hf]
      · simp [receive_handler, hf]
    | V6 d => simp [receive_handler]
  · intro hrej
    cases source with
    | V4 inner => simp [receive_handler, hrej inner rfl]
    | V6 d => simp [receive_handler]
  · intro out hout
    cases source with
    | V4 inner =>
      by_cases hf : f.should_transmit inner = true
      · simpa [receive_handler, hf] using hout.symm
      · simp [receive_handler, hf] at hout
    | V6 d => simp [receive_handler] at hout

/-- Witness for C4: a packet from `10.0.0.5:4000` with empty filter lists is
published with its payload and source intact. -/
theorem receive_handler_publishes_iff_witness :
    receive_handler (AddressFilter.mk [] [] [])
        (.ok ([1, 2, 3], .V4 ⟨Ipv4Addr.new 10 0 0 5, 4000⟩))
      = .ok (some ([1, 2, 3], .V4 ⟨Ipv4Addr.new 10 0 0 5, 4000⟩)) :=
  (receive_handler_publishes_iff (AddressFilter.mk [] [] []) [1, 2, 3]
      (.V4 ⟨Ipv4Addr.new 10 0 0 5, 4000⟩)).1.mpr
    ⟨⟨Ipv4Addr.new 10 0 0 5, 4000⟩, rfl, by decide⟩

/-- Embedding of the per-Receiver task (src/main.rs lines 222-227): an
unconditional loop of `receive_handler` calls over a trace of read results.
It returns the per-iteration publish actions and whether the task aborted
(the `unwrap` on a read error panics the task, ending the loop). -/
def receiver_loop (address_filter : AddressFilter)
    (reads : List (Except Unit (List Nat × SocketAddr))) :
    List (Option (List Nat × SocketAddr)) × Bool :=
  match reads with
  | [] => ([], false)
  | r :: rest =>
    match receive_handler address_filter r with
    | .error _ => ([], true)
    | .ok pub =>
      let p := receiver_loop address_filter rest
      (pub :: p.1, p.2)

/-- C6: a read error is fatal to its Receiver: the loop's behavior on a trace
with an error is exactly its behavior on the trace cut right after that error
(no later read is ever processed), and the loop ends aborted. -/
theorem receiver_loop_fatal_on_read_error (f : AddressFilter)
    (pre post : List (Except Unit (List Nat × SocketAddr))) :
    receiver_loop f (pre ++ .error () :: post) = receiver_loop f (pre ++ [.error ()]) ∧
      (receiver_loop f (pre ++ .error () :: post)).2 = true := by
  induction pre with
  | nil => exact ⟨rfl, rfl⟩
  | cons r rest ih =>
    have h2 : (receiver_loop f (rest ++ [Except.error ()])).2 = true := by
      rw [← ih.1]; exact ih.2
    cases r with
    | error e => exact ⟨rfl, rfl⟩
    | ok v =>
      obtain ⟨payload, source⟩ := v
      cases source with
      | V4 inner =>
        by_cases hf : f.should_transmit inner = true <;>
          simp [receiver_loop, receive_handler, hf, ih.1, h2]
      | V6 d => simp [receiver_loop, receive_handler, ih.1, h2]

/-- The fixed local transmit port (`TRANSMIT_PORT` in src/main.rs line 17). -/
def TRANSMIT_PORT : Nat := 58371

/-- The single shared transmit socket's bind address (src/main.rs line 236):
`127.0.0.1` at `TRANSMIT_PORT`. -/
def transmit_sock_addr : SocketAddrV4 :=
  SocketAddrV4.mk (Ipv4Addr.new 127 0 0 1) TRANSMIT_PORT

/-- Embedding of the per-packet transmit task (src/main.rs lines 254-261): walk
the configured destination list, call `send_to` on the shared socket for each
destination with the packet's bytes, and continue to the next destination on
both the success branch (`debug!`) and the failure branch (`error!`). Returns
the list of send attempts `(source socket, destination, payload)` made. -/
def transmit_once (transmit_sock : SocketAddrV4) (buf : List Nat)
    (transmit_addresses : List SocketAddrV4)
    (send_to : SocketAddrV4 → List Nat → SocketAddrV4 → Except Unit Nat) :
    List (SocketAddrV4 × SocketAddrV4 × List Nat) :=
  match transmit_addresses with
  | [] => []
  | transmit_address :: rest =>
    match send_to transmit_sock buf transmit_address with
    | .ok _ =>
      (transmit_sock, transmit_address, buf) :: transmit_once transmit_sock buf rest send_to
    | .error _ =>
      (transmit_sock, transmit_address, buf) :: transmit_once transmit_sock buf rest send_to

/-- Embedding of the main transmit loop (src/main.rs lines 248-269): for every
successful bus read, fan the payload out to every configured destination from
the single socket bound at `transmit_sock_addr`; on a bus receive error, log
and continue. Returns all send attempts made over a trace of bus reads. -/
def transmit_loop (recvs : List (Except Unit (List Nat × SocketAddr)))
    (transmit_addresses : List SocketAddrV4)
    (send_to : SocketAddrV4 → List Nat → SocketAddrV4 → Except Unit Nat) :
    List (SocketAddrV4 × SocketAddrV4 × List Nat) :=
  recvs.flatMap (fun r =>
    match r with
    | .ok (buf, _source_addr) => transmit_once transmit_sock_addr buf transmit_addresses send_to
    | .error _ => [])

/-- C5: one bus packet yields exactly one send attempt per configured
destination, in order, each carrying the identical payload — whatever results
the individual sends have, so one destination's failure never suppresses the
attempts to the others. -/
theorem transmit_once_exactly_one_send_each
    (transmit_sock : SocketAddrV4) (buf : List Nat)
    (transmit_addresses : List SocketAddrV4)
    (send_to : SocketAddrV4 → List Nat → SocketAddrV4 → Except Unit Nat) :
    transmit_once transmit_sock buf transmit_addresses send_to
      = transmit_addresses.map (fun transmit_address =>
          (transmit_sock, transmit_address, buf)) := by
  induction transmit_addresses with
  | nil => rfl
  | cons a rest ih =>
    cases h : send_to transmit_sock buf a <;> simp [transmit_once, h, ih]

/-- C9: every send attempt the transmit loop ever makes goes out from the one
shared socket bound to `127.0.0.1:58371`, whatever the configured destinations
and whatever the bus delivered. -/
theorem transmit_loop_single_shared_socket
    (recvs : List (Except Unit (List Nat × SocketAddr)))
    (transmit_addresses : List SocketAddrV4)
    (send_to : SocketAddrV4 → List Nat → SocketAddrV4 → Except Unit Nat)
    (e : SocketAddrV4 × SocketAddrV4 × List Nat)
    (he : e ∈ transmit_loop recvs transmit_addresses send_to) :
    e.1 = SocketAddrV4.mk (Ipv4Addr.new 127 0 0 1) 58371 := by
  simp only [transmit_loop, List.mem_flatMap] at he
  obtain ⟨r, _, hr⟩ := he
  cases r with
  | error _ => simp at hr
  | ok v =>
    obtain ⟨buf, src⟩ := v
    dsimp only at hr
    rw [transmit_once_exactly_one_send_each] at hr
    simp only [List.mem_map] at hr
    obtain ⟨a, _, ha⟩ := hr
    rw [← ha]
    rfl

/-- Witness for C9: a concrete send attempt out of a one-packet trace uses the
socket at `127.0.0.1:58371`. -/
theorem transmit_loop_single_shared_socket_witness :
    (transmit_sock_addr, SocketAddrV4.mk (Ipv4Addr.new 10 0 0 7) 9001,
        ([5, 6] : List Nat)).1
      = SocketAddrV4.mk (Ipv4Addr.new 127 0 0 1) 58371 :=
  transmit_loop_single_shared_socket
    [.ok ([5, 6], .V4 ⟨Ipv4Addr.new 10 0 0 9, 4000⟩)]
    [⟨Ipv4Addr.new 10 0 0 7, 9001⟩]
    (fun _ _ _ => .ok 2)
    (transmit_sock_addr, ⟨Ipv4Addr.new 10 0 0 7, 9001⟩, [5, 6])
    (by decide)

/-- One address of a network interface (`network_interface::Addr`): IPv4 with
its optional broadcast and netmask, or IPv6 (opaque here). -/
inductive Addr where
  | V4 (ip : Ipv4Addr) (broadcast : Option Ipv4Addr) (netmask : Option Ipv4Addr)
  | V6 (data : Nat)
deriving DecidableEq, Repr

/-- A network interface (`network_interface::NetworkInterface`): its name and
its list of addresses. -/
structure NetworkInterface where
  name : String
  addr : List Addr
deriving DecidableEq, Repr

/-- Embedding of `get_socket_addresses` (src/main.rs lines 54-78): look each
interface name up in the map (skipping absent names), keep each interface's
IPv4 addresses (skipping others) paired with the given port, and return `None`
exactly when zero addresses were collected. The `HashMap` is embedded as its
lookup function. -/
def get_socket_addresses (interfaces : List String)
    (interface_map : String → Option NetworkInterface) (port : Nat) :
    Option (List SocketAddrV4) :=
  let addrs : List SocketAddrV4 :=
    (interfaces.filterMap (fun interface_name =>
        (interface_map interface_name).map NetworkInterface.addr)).flatMap
      (fun addrs => addrs.filterMap (fun addr =>
        match addr with
        | Addr.V4 ip _ _ => some (SocketAddrV4.mk ip port)
        | _ => none))
  match addrs.length with
  | 0 => none
  | _ + 1 => some addrs

/-- The IPv4 addresses of the named interfaces, in input order: absent names
contribute nothing, and non-IPv4 addresses of a named interface are skipped.
Stated from the observable behavior, to characterize `get_socket_addresses`. -/
def interface_ipv4s (interfaces : List String)
    (interface_map : String → Option NetworkInterface) : List Ipv4Addr :=
  interfaces.flatMap (fun interface_name =>
    match interface_map interface_name with
    | none => []
    | some ni => ni.addr.filterMap (fun addr =>
        match addr with
        | Addr.V4 ip _ _ => some ip
        | _ => none))

/-- Pairing with a fixed port commutes with extracting the IPv4 addresses of
one interface's address list. -/
theorem addr_filterMap_map (l : List Addr) (port : Nat) :
    l.filterMap (fun addr =>
        match addr with
        | Addr.V4 ip _ _ => some (SocketAddrV4.mk ip port)
        | _ => none)
      = (l.filterMap (fun addr =>
          match addr with
          | Addr.V4 ip _ _ => some ip
          | _ => none)).map (fun ip => SocketAddrV4.mk ip port) := by
  induction l with
  | nil => rfl
  | cons a rest ih => cases a <;> simp [List.filterMap_cons, ih]

/-- The address list `get_socket_addresses` collects is `interface_ipv4s`
paired with the port. -/
theorem collected_socket_addresses_eq (interfaces : List String)
    (interface_map : String → Option NetworkInterface) (port : Nat) :
    ((interfaces.filterMap (fun interface_name =>
        (interface_map interface_name).map NetworkInterface.addr)).flatMap
      (fun addrs => addrs.filterMap (fun addr =>
        match addr with
        | Addr.V4 ip _ _ => some (SocketAddrV4.mk ip port)
        | _ => none)))
      = (interface_ipv4s interfaces interface_map).map (fun ip => SocketAddrV4.mk ip port) := by
  induction interfaces with
  | nil => rfl
  | cons n rest ih =>
    cases hmap : interface_map n with
    | none =>
      simp only [interface_ipv4s, List.flatMap_cons, List.filterMap_cons, hmap, Option.map_none']
      simpa [interface_ipv4s] using ih
    | some ni =>
      simp only [interface_ipv4s, List.flatMap_cons, List.filterMap_cons, hmap,
        Option.map_some', List.map_append]
      rw [addr_filterMap_map]
      simpa [interface_ipv4s] using ih

/-- Behavior of `get_socket_addresses` in terms of the resolved IPv4 list. -/
theorem get_socket_addresses_eq (interfaces : List String)
    (interface_map : String → Option NetworkInterface) (port : Nat) :
    get_socket_addresses interfaces interface_map port
      = if interface_ipv4s interfaces interface_map = [] then none
        else some ((interface_ipv4s interfaces interface_map).map
          (fun ip => SocketAddrV4.mk ip port)) := by
  unfold get_socket_addresses
  rw [collected_socket_addresses_eq]
  cases hips : interface_ipv4s interfaces interface_map with
  | nil => simp
  | cons x xs => simp

/-- C10: `get_socket_addresses` returns `None` exactly when zero addresses are
collected; otherwise it returns each named interface's IPv4 addresses paired
with the given port, in input order; and a name absent from the map is
silently skipped. -/
theorem get_socket_addresses_spec (interfaces : List String)
    (interface_map : String → Option NetworkInterface) (port : Nat) :
    (get_socket_addresses interfaces interface_map port = none ↔
      interface_ipv4s interfaces interface_map = []) ∧
    (∀ l, get_socket_addresses interfaces interface_map port = some l →
      l = (interface_ipv4s interfaces interface_map).map (fun ip => SocketAddrV4.mk ip port)) ∧
    (∀ n, interface_map n = none →
      get_socket_addresses (n :: interfaces) interface_map port
        = get_socket_addresses interfaces interface_map port) := by
  refine ⟨?_, ?_, ?_⟩
  · rw [get_socket_addresses_eq]
    by_cases hips : interface_ipv4s interfaces interface_map = [] <;> simp [hips]
  · intro l hl
    rw [get_socket_addresses_eq] at hl
    by_cases hips : interface_ipv4s interfaces interface_map = []
    · simp [hips] at hl
    · simp only [hips, if_false] at hl
      exact (Option.some_injective _ hl).symm
  · intro n hn
    rw [get_socket_addresses_eq, get_socket_addresses_eq]
    have : interface_ipv4s (n :: interfaces) interface_map
        = interface_ipv4s interfaces interface_map := by
      simp [interface_ipv4s, List.flatMap_cons, hn]
    rw [this]

/-- Witness for C10: an interface name the map does not know yields `None`. -/
theorem get_socket_addresses_spec_witness :
    get_socket_addresses ["lo"] (fun _ => none) 4000 = none :=
  (get_socket_addresses_spec ["lo"] (fun _ => none) 4000).1.mpr (by decide)

/-- Embedding of `let transmit_ports = (1..3).map(|i| args.port + i)`
(src/main.rs line 177): the two `u16` ports `port + 1` and `port + 2`,
with `u16` wrap-around. -/
def transmit_ports (port : Nat) : List Nat :=
  (List.range' 1 2).map (fun i => (port + i) % 65536)

/-- Embedding of the `flat_map` over `transmit_ports` building
`transmit_addresses` (src/main.rs lines 179-193): resolve the transmit
interfaces at each transmit port, concatenating the results; a `None` from
`get_socket_addresses` makes the process exit (modelled as `none`). -/
def compute_transmit_addresses_go (interfaces : List String)
    (interface_map : String → Option NetworkInterface) :
    List Nat → Option (List SocketAddrV4)
  | [] => some []
  | tp :: rest =>
    match get_socket_addresses interfaces interface_map tp with
    | none => none
    | some addrs =>
      (compute_transmit_addresses_go interfaces interface_map rest).map
        (fun tail => addrs ++ tail)

/-- The `transmit_addresses` list of src/main.rs lines 176-199, whose elements
form the Transmit-Address Set (`HashSet::from_iter` keeps exactly its
members). -/
def compute_transmit_addresses (interfaces : List String)
    (interface_map : String → Option NetworkInterface) (port : Nat) :
    Option (List SocketAddrV4) :=
  compute_transmit_addresses_go interfaces interface_map (transmit_ports port)

/-- Membership in an IP list paired with a fixed port. -/
theorem mem_map_mk_iff (ips : List Ipv4Addr) (p : Nat) (a : SocketAddrV4) :
    a ∈ ips.map (fun ip => SocketAddrV4.mk ip p) ↔ a.ip ∈ ips ∧ a.port = p := by
  cases a with
  | mk ip port =>
    simp only [List.mem_map]
    constructor
    · rintro ⟨ip', hip', heq⟩
      cases heq
      exact ⟨hip', rfl⟩
    · rintro ⟨hip, hp⟩
      exact ⟨ip, hip, by rw [hp]⟩

/-- C8: when startup succeeds, the Transmit-Address Set is exactly every
resolved transmit-interface IPv4 address paired with the ports `port + 1` and
`port + 2` (as `u16` values), so the configured receive port itself is never
the port of any member, and no other ports occur. -/
theorem transmit_address_set_spec (interfaces : List String)
    (interface_map : String → Option NetworkInterface) (port : Nat)
    (addrs : List SocketAddrV4)
    (h : compute_transmit_addresses interfaces interface_map port = some addrs) :
    (∀ a : SocketAddrV4, a ∈ addrs ↔
      a.ip ∈ interface_ipv4s interfaces interface_map ∧
        (a.port = (port + 1) % 65536 ∨ a.port = (port + 2) % 65536)) ∧
    ∀ a ∈ addrs, a.port ≠ port := by
  have hports : transmit_ports port = [(port + 1) % 65536, (port + 2) % 65536] := rfl
  by_cases hips : interface_ipv4s interfaces interface_map = []
  · exfalso
    rw [compute_transmit_addresses, hports] at h
    simp [compute_transmit_addresses_go, get_socket_addresses_eq, hips] at h
  · have haddrs : addrs
        = (interface_ipv4s interfaces interface_map).map
            (fun ip => SocketAddrV4.mk ip ((port + 1) % 65536))
          ++ ((interface_ipv4s interfaces interface_map).map
            (fun ip => SocketAddrV4.mk ip ((port + 2) % 65536)) ++ []) := by
      rw [compute_transmit_addresses, hports] at h
      simp only [compute_transmit_addresses_go, get_socket_addresses_eq, hips,
        if_false, Option.map_some'] at h
      exact (Option.some_injective _ h).symm
    have hmem : ∀ a : SocketAddrV4, a ∈ addrs ↔
        a.ip ∈ interface_ipv4s interfaces interface_map ∧
          (a.port = (port + 1) % 65536 ∨ a.port = (port + 2) % 65536) := by
      intro a
      rw [haddrs]
      simp only [List.append_nil, List.mem_append, mem_map_mk_iff]
      constructor
      · rintro (⟨hip, hp⟩ | ⟨hip, hp⟩)
        · exact ⟨hip, Or.inl hp⟩
        · exact ⟨hip, Or.inr hp⟩
      · rintro ⟨hip, hp | hp⟩
        · exact Or.inl ⟨hip, hp⟩
        · exact Or.inr ⟨hip, hp⟩
    refine ⟨hmem, ?_⟩
    intro a ha
    rcases ((hmem a).mp ha).2 with hp | hp <;> omega

/-- Witness for C8: one interface with address `10.0.0.5` and receive port
`9000` puts `10.0.0.5:9001` in the set, whose port differs from `9000`. -/
theorem transmit_address_set_spec_witness :
    (SocketAddrV4.mk (Ipv4Addr.new 10 0 0 5) 9001).port ≠ 9000 :=
  (transmit_address_set_spec ["eth0"]
      (fun _ => some (NetworkInterface.mk "eth0"
        [Addr.V4 (Ipv4Addr.new 10 0 0 5) none none]))
      9000
      [⟨Ipv4Addr.new 10 0 0 5, 9001⟩, ⟨Ipv4Addr.new 10 0 0 5, 9002⟩]
      (by decide)).2
    (SocketAddrV4.mk (Ipv4Addr.new 10 0 0 5) 9001) (by decide)
